import Mathlib

/-!
Verification of the pgha cluster membership registry and heartbeat coordinator
(src/pgha/pgha.c, src/pgha/pgha.h).

The shared-memory data model (PgHaNode, PgHaCtlData) and every operation on it
(addNode, delNode, get_hanode_count, join_node, doHeartbeat, checkClusterStatus,
and the master coordinator loop body) are shallowly embedded as executable Lean
functions, translated line by line from the C source.  The registry's
readers/writer LWLock is modelled by a boolean `lockHeld` recording whether the
current process holds the lock at a given point; acquisition sets it, release
clears it (there is a single worker process in this design, so blocking
behaviour does not arise in the model, only the held/free status at function
return).  `ereport(ERROR, ...)` aborts the enclosing statement without
returning to the caller; it is modelled by an `Except.error` result paired with
the shared-memory state as it stands at the point of the longjmp.
-/

/-- One node record in shared memory (struct PgHaNode, pgha.h lines 23-34).
The per-record spinlock `mutex` guards only `retry_count` and is modelled as
atomic update ordering (single worker process), so it carries no state here. -/
structure PgHaNode where
  name : String
  conninfo : String
  type : Char
  in_use : Bool
  myself : Bool
  live : Bool
  is_sync : Bool
  retry_count : Nat
deriving Repr, DecidableEq

/-- The all-zero record produced by memset(node, 0, sizeof(PgHaNode)). -/
def zeroNode : PgHaNode :=
  { name := "", conninfo := "", type := Char.ofNat 0, in_use := false,
    myself := false, live := false, is_sync := false, retry_count := 0 }

/-- The shared control structure (struct PgHaCtlData, pgha.h lines 36-41).
`nodes` is total over Nat so that the C code's unchecked slot accesses at
indices at or beyond `maxNodes` (out-of-bounds in C) are representable; the
valid slots are indices below the configured `pgha.max_ha_nodes`.  `lockHeld`
models whether this process currently holds the registry LWLock. -/
structure PgHaCtlData where
  lockHeld : Bool
  n_nodes : Nat
  nodes : Nat → PgHaNode

/-- Registry state right after pgha_shmem_startup: no nodes, every slot free,
lock not held (pgha.c lines 210-240). -/
def initCtl : PgHaCtlData :=
  { lockHeld := false, n_nodes := 0, nodes := fun _ => zeroNode }

/-- Errors raised via ereport(ERROR, ...) by the registry operations. -/
inductive PgHaError where
  | DuplicateNode
  | NodeNotFound
  | NotMaster
deriving Repr, DecidableEq

/-- Write record `v` into slot `i` (assignment through a PgHaNode pointer). -/
def setSlot (nodes : Nat → PgHaNode) (i : Nat) (v : PgHaNode) : Nat → PgHaNode :=
  fun j => if j = i then v else nodes j

/-- The scan loop `for (i = 0; i < pgha_max_nodes; i++)` looking for an in-use
slot whose name matches (addNode lines 374-390, delNode lines 420-429),
starting at slot `i` with `remaining` slots left to visit; returns the index
of the first match. -/
def scanFrom (nodes : Nat → PgHaNode) (name : String) : Nat → Nat → Option Nat
  | 0, _ => none
  | remaining + 1, i =>
    if (nodes i).in_use && ((nodes i).name == name) then some i
    else scanFrom nodes name remaining (i + 1)

/-- Full scan of all `maxN` slots for an in-use record named `name`. -/
def findNode (nodes : Nat → PgHaNode) (maxN : Nat) (name : String) : Option Nat :=
  scanFrom nodes name maxN 0

/-- addNode (pgha.c lines 364-409).  Acquires the registry lock exclusively,
scans every slot for an in-use record with the same name; on a match it either
raises a duplicate-name error (dup_ok = false; the `return false` after
ereport(ERROR, ...) is unreachable) or returns true immediately — note the
source performs no LWLockRelease on that early return.  Otherwise it fills the
slot at index `n_nodes` (no capacity check against `maxN` exists in the
source), increments `n_nodes` and releases the lock.  The `live` field is
never assigned by the source, so the slot's previous value is kept. -/
def addNode (maxN : Nat) (amMaster : Bool) (ctl : PgHaCtlData)
    (name conninfo : String) (myself dup_ok : Bool) :
    PgHaCtlData × Except PgHaError Bool :=
  let ctl1 : PgHaCtlData := { ctl with lockHeld := true }
  match findNode ctl1.nodes maxN name with
  | some _ =>
    if !dup_ok then
      (ctl1, Except.error PgHaError.DuplicateNode)
    else
      (ctl1, Except.ok true)
  | none =>
    let old := ctl1.nodes ctl1.n_nodes
    let newNode : PgHaNode :=
      { name := name, conninfo := conninfo,
        type := if amMaster then 'm' else 's',
        in_use := true, myself := myself, live := old.live,
        is_sync := false, retry_count := 0 }
    let ctl2 : PgHaCtlData :=
      { ctl1 with nodes := setSlot ctl1.nodes ctl1.n_nodes newNode,
                  n_nodes := ctl1.n_nodes + 1 }
    ({ ctl2 with lockHeld := false }, Except.ok true)

/-- delNode (pgha.c lines 411-448).  Acquires the registry lock, scans for the
named in-use record and raises a not-found error if absent.  On success it
copies the record at index `n_nodes` over the found slot ("Move tail node to
deleting node position" — note the source reads slot `n_nodes`, one past the
last live slot), zeroes slot `n_nodes`, decrements `n_nodes`, releases. -/
def delNode (maxN : Nat) (ctl : PgHaCtlData) (name : String) :
    PgHaCtlData × Except PgHaError Bool :=
  let ctl1 : PgHaCtlData := { ctl with lockHeld := true }
  match findNode ctl1.nodes maxN name with
  | none => (ctl1, Except.error PgHaError.NodeNotFound)
  | some i =>
    let nodes1 := setSlot ctl1.nodes i (ctl1.nodes ctl1.n_nodes)
    let nodes2 := setSlot nodes1 ctl1.n_nodes zeroNode
    ({ ctl1 with nodes := nodes2, n_nodes := ctl1.n_nodes - 1,
                 lockHeld := false }, Except.ok true)

/-- get_hanode_count (pgha.c lines 679-689): reads `n_nodes` under a shared
lock and releases it before returning. -/
def get_hanode_count (ctl : PgHaCtlData) : PgHaCtlData × Nat :=
  ({ ctl with lockHeld := false }, ctl.n_nodes)

/-- The listing loop of join_node (pgha.c lines 542-555): collect the (name,
conninfo) pairs of every in-use slot, visiting slots in index order starting
at slot `i` with `remaining` slots left. -/
def listFrom (nodes : Nat → PgHaNode) : Nat → Nat → List (String × String)
  | 0, _ => []
  | remaining + 1, i =>
    if (nodes i).in_use then
      ((nodes i).name, (nodes i).conninfo) :: listFrom nodes remaining (i + 1)
    else
      listFrom nodes remaining (i + 1)

/-- join_node (pgha.c lines 495-562).  Raises an error when the local process
is not the master, before any side effect.  Otherwise registers the caller
duplicate-tolerantly and returns the member set gathered under a shared lock.
The result-set materialization plumbing (tuplestore construction) carries no
registry state and is not modelled. -/
def join_node (maxN : Nat) (amMaster : Bool) (ctl : PgHaCtlData)
    (name conninfo : String) :
    PgHaCtlData × Except PgHaError (List (String × String)) :=
  if !amMaster then
    (ctl, Except.error PgHaError.NotMaster)
  else
    match addNode maxN amMaster ctl name conninfo false true with
    | (ctl1, Except.error e) => (ctl1, Except.error e)
    | (ctl1, Except.ok _) =>
      ({ ctl1 with lockHeld := false }, Except.ok (listFrom ctl1.nodes maxN 0))

/-- The body of one iteration of the heartbeat sweep loop at slot `i`
(pgha.c lines 629-654): skip free or self slots, skip standby records when the
local process is a standby (the source tests the free/self condition twice),
otherwise probe the node's conninfo and update its retry counter under the
per-node spinlock — reset to 0 on success, increment on failure. -/
def sweepStep (amMaster : Bool) (probe : String → Bool)
    (nodes : Nat → PgHaNode) (i : Nat) : Nat → PgHaNode :=
  let node := nodes i
  if !node.in_use || node.myself then nodes
  else if !amMaster && node.type == 's' then nodes
  else if !node.in_use || node.myself then nodes
  else
    setSlot nodes i
      { node with retry_count := if probe node.conninfo then 0 else node.retry_count + 1 }

/-- The heartbeat sweep over a list of slot indices, in order. -/
def sweepList (amMaster : Bool) (probe : String → Bool)
    (nodes : Nat → PgHaNode) : List Nat → (Nat → PgHaNode)
  | [] => nodes
  | i :: rest => sweepList amMaster probe (sweepStep amMaster probe nodes i) rest

/-- doHeartbeat (pgha.c lines 622-657): under a shared registry lock, sweep
slots 0 .. maxN-1 in order; the probe of each node's conninfo is the external
collaborator execSQL(conninfo, "SELECT 1"), abstracted as a boolean oracle.
The shared lock is released at the end of the sweep. -/
def doHeartbeat (maxN : Nat) (amMaster : Bool) (probe : String → Bool)
    (ctl : PgHaCtlData) : PgHaCtlData :=
  { ctl with nodes := sweepList amMaster probe ctl.nodes (List.range maxN),
             lockHeld := false }

/-- The per-record effect of one heartbeat sweep, as a single function: a free
or self record is untouched, a standby record is untouched when the local
process is a standby, and an eligible record has its retry counter reset to 0
by a successful probe and incremented by 1 by a failed probe. -/
def heartbeatUpdate (amMaster : Bool) (probe : String → Bool)
    (node : PgHaNode) : PgHaNode :=
  if !node.in_use || node.myself then node
  else if !amMaster && node.type == 's' then node
  else { node with retry_count := if probe node.conninfo then 0 else node.retry_count + 1 }

/-- checkClusterStatus (pgha.c lines 673-677): the cluster health decision
function in the source is a stub with an empty body that always reports the
cluster healthy. -/
def checkClusterStatus : Bool := true

/-- Scan of slots looking for a tracked (in-use, non-self) peer whose retry
counter strictly exceeds `threshold`, starting at slot `i` with `remaining`
slots left. -/
def anyExceeds (nodes : Nat → PgHaNode) (threshold : Nat) : Nat → Nat → Bool
  | 0, _ => false
  | remaining + 1, i =>
    if (nodes i).in_use && !(nodes i).myself
        && decide (threshold < (nodes i).retry_count) then true
    else anyExceeds nodes threshold remaining (i + 1)

/-- Modelled from the spec: the cluster health policy the specification states
for the evaluator (degraded iff some tracked peer's failureCount strictly
exceeds the configured retry threshold); the source's checkClusterStatus stub
is to be compared against this predicate. -/
def degradedPerSpec (maxN : Nat) (nodes : Nat → PgHaNode) (threshold : Nat) : Bool :=
  anyExceeds nodes threshold maxN 0

/-- The observable steps of one iteration of the master coordinator loop body
(PgHaMasterLoop, pgha.c lines 564-614). -/
inductive CycleEvent where
  | reloadConfig
  | heartbeat
  | healthEval
  | modeSwitch
deriving Repr, DecidableEq

/-- Outcome of one pass through the coordinator loop: either the loop exits
(returning the given status to PgHaMain) or the cycle body runs, producing the
listed events in order. -/
inductive CycleResult where
  | exited (ok : Bool)
  | ran (events : List CycleEvent)
deriving Repr, DecidableEq

/-- One iteration of PgHaMasterLoop (pgha.c lines 569-611), as the sequence of
steps it performs.  The `while (!got_sigterm)` condition is checked first; a
postmaster-death wakeup returns false immediately; a pending SIGHUP triggers a
configuration reload; then the node count is read via get_hanode_count and,
only when it is above 1, the heartbeat sweep runs, followed — only when
in_syncrep is set — by the health evaluation `checkClusterStatus()` whose
failure triggers the mode switch changeToAsync(). -/
def masterCycle (sigterm pmDeath sighup : Bool) (ctl : PgHaCtlData)
    (inSyncrep : Bool) : CycleResult :=
  if sigterm then CycleResult.exited true
  else if pmDeath then CycleResult.exited false
  else
    let n := (get_hanode_count ctl).2
    CycleResult.ran
      ((if sighup then [CycleEvent.reloadConfig] else []) ++
        (if 1 < n then
          CycleEvent.heartbeat ::
            (if inSyncrep then
              CycleEvent.healthEval ::
                (if !checkClusterStatus then [CycleEvent.modeSwitch] else [])
            else [])
        else []))

/-- The role dispatch of PgHaMain (pgha.c lines 297-304): the master loop body
runs only when the local process is the master; a standby runs
PgHaStandbyLoop, which returns true immediately and performs no cycle work. -/
def coordinatorCycle (amMaster sigterm pmDeath sighup : Bool)
    (ctl : PgHaCtlData) (inSyncrep : Bool) : CycleResult :=
  if !amMaster then CycleResult.exited true
  else masterCycle sigterm pmDeath sighup ctl inSyncrep

/-- A registry operation, for stating invariants over operation sequences. -/
inductive RegOp where
  | insert (name conninfo : String) (myself dup_ok : Bool)
  | remove (name : String)

/-- Apply one registry operation to the shared state.  An ereport(ERROR, ...)
aborts the calling statement; the shared registry keeps the state the
operation left behind. -/
def applyOp (maxN : Nat) (amMaster : Bool) (ctl : PgHaCtlData) : RegOp → PgHaCtlData
  | RegOp.insert name conninfo myself dup_ok =>
    (addNode maxN amMaster ctl name conninfo myself dup_ok).1
  | RegOp.remove name => (delNode maxN ctl name).1

/-- Run a sequence of registry operations from a given state. -/
def runOps (maxN : Nat) (amMaster : Bool) : PgHaCtlData → List RegOp → PgHaCtlData
  | ctl, [] => ctl
  | ctl, op :: rest => runOps maxN amMaster (applyOp maxN amMaster ctl op) rest

/-- Number of slots among the first `n` with in_use set. -/
def countInUse (nodes : Nat → PgHaNode) : Nat → Nat
  | 0 => 0
  | n + 1 => countInUse nodes n + (if (nodes n).in_use then 1 else 0)

/-- An insert/remove sequence exhibiting the registry compaction defect:
insert a, insert b, remove a, insert c. -/
def c1ops : List RegOp :=
  [RegOp.insert "a" "ca" true false,
   RegOp.insert "b" "cb" false false,
   RegOp.remove "a",
   RegOp.insert "c" "cc" false false]

/-- A self (master) record, as written by the self-registration in PgHaMain. -/
def nodeA : PgHaNode :=
  { name := "a", conninfo := "ca", type := 'm', in_use := true,
    myself := true, live := false, is_sync := false, retry_count := 0 }

/-- A standby peer record with three accumulated probe failures. -/
def nodeB : PgHaNode :=
  { name := "nb", conninfo := "cb", type := 's', in_use := true,
    myself := false, live := false, is_sync := false, retry_count := 3 }

/-- A second standby peer record with two accumulated probe failures. -/
def nodeC : PgHaNode :=
  { name := "nc", conninfo := "cc", type := 's', in_use := true,
    myself := false, live := false, is_sync := false, retry_count := 2 }

/-- A registry holding exactly the self record nodeA in slot 0. -/
def dupState : PgHaCtlData :=
  { lockHeld := false, n_nodes := 1,
    nodes := fun i => if i = 0 then nodeA else zeroNode }

/-- A registry holding self in slot 0 and the peers nodeB, nodeC in slots
1 and 2. -/
def hbState : PgHaCtlData :=
  { lockHeld := false, n_nodes := 3,
    nodes := fun i =>
      if i = 0 then nodeA else if i = 1 then nodeB
      else if i = 2 then nodeC else zeroNode }

/-- A probe oracle under which nodeB (conninfo "cb") is reachable and every
other node is unreachable. -/
def hbProbe : String → Bool := fun c => c == "cb"

/-- Slot assignment for a registry with a tracked peer whose retry counter
is 5, past the default retry threshold of 4. -/
def c2nodes : Nat → PgHaNode := fun i =>
  if i = 0 then nodeA
  else if i = 1 then { nodeB with retry_count := 5 }
  else zeroNode

/-- A full registry of capacity 1: the self record occupies the only slot. -/
def fullState : PgHaCtlData := (addNode 1 true initCtl "a" "ca" true false).1

/-! ## Helper lemmas -/

theorem scanFrom_eq_none_iff (nodes : Nat → PgHaNode) (name : String) :
    ∀ (remaining i : Nat),
      (scanFrom nodes name remaining i = none ↔
        ∀ j, i ≤ j → j < i + remaining →
          ¬((nodes j).in_use = true ∧ (nodes j).name = name)) := by
  intro remaining
  induction remaining with
  | zero =>
    intro i
    simp only [scanFrom]
    constructor
    · intro _ j h1 h2
      omega
    · intro _
      trivial
  | succ r ih =>
    intro i
    rw [scanFrom]
    by_cases hc : ((nodes i).in_use && ((nodes i).name == name)) = true
    · rw [Bool.and_eq_true, beq_iff_eq] at hc
      simp only [hc, Bool.and_self, if_true]
      constructor
      · intro h
        exact absurd h (by simp)
      · intro hall
        exact absurd ⟨hc.1, hc.2⟩ (hall i (Nat.le_refl i) (by omega))
    · have hc2 : ((nodes i).in_use && ((nodes i).name == name)) = false :=
        Bool.eq_false_iff.mpr hc
      simp only [hc2, Bool.false_eq_true, if_false]
      rw [ih (i + 1)]
      constructor
      · intro h j h1 h2
        rcases Nat.eq_or_lt_of_le h1 with h1e | h1l
        · intro ⟨hu, hn⟩
          subst h1e
          exact hc (by rw [Bool.and_eq_true, beq_iff_eq]; exact ⟨hu, hn⟩)
        · exact h j h1l (by omega)
      · intro h j h1 h2
        exact h j (by omega) (by omega)

theorem findNode_eq_none_iff (nodes : Nat → PgHaNode) (maxN : Nat) (name : String) :
    findNode nodes maxN name = none ↔
      ∀ j, j < maxN → ¬((nodes j).in_use = true ∧ (nodes j).name = name) := by
  rw [findNode, scanFrom_eq_none_iff]
  constructor
  · intro h j hj
    exact h j (Nat.zero_le j) (by omega)
  · intro h j _ hj
    exact h j (by omega)

theorem findNode_isSome_of_exists (nodes : Nat → PgHaNode) (maxN : Nat) (name : String)
    (h : ∃ j, j < maxN ∧ (nodes j).in_use = true ∧ (nodes j).name = name) :
    ∃ k, findNode nodes maxN name = some k := by
  rcases hk : findNode nodes maxN name with _ | k
  · obtain ⟨j, hj, hprop⟩ := h
    exact absurd hprop ((findNode_eq_none_iff nodes maxN name).mp hk j hj)
  · exact ⟨k, rfl⟩

theorem sweepStep_apply (amMaster : Bool) (probe : String → Bool)
    (nodes : Nat → PgHaNode) (i j : Nat) :
    sweepStep amMaster probe nodes i j =
      if j = i then heartbeatUpdate amMaster probe (nodes i) else nodes j := by
  unfold sweepStep heartbeatUpdate setSlot
  by_cases hj : j = i <;>
    by_cases h1 : (!(nodes i).in_use || (nodes i).myself) = true <;>
      by_cases h2 : (!amMaster && (nodes i).type == 's') = true <;>
        simp [hj, h1, h2]

theorem sweepList_not_mem (amMaster : Bool) (probe : String → Bool) :
    ∀ (l : List Nat) (nodes : Nat → PgHaNode) (j : Nat), j ∉ l →
      sweepList amMaster probe nodes l j = nodes j := by
  intro l
  induction l with
  | nil =>
    intro nodes j _
    rfl
  | cons i rest ih =>
    intro nodes j h
    rw [List.mem_cons, not_or] at h
    rw [sweepList, ih _ j h.2, sweepStep_apply, if_neg h.1]

theorem sweepList_mem (amMaster : Bool) (probe : String → Bool) :
    ∀ (l : List Nat) (nodes : Nat → PgHaNode) (j : Nat), l.Nodup → j ∈ l →
      sweepList amMaster probe nodes l j = heartbeatUpdate amMaster probe (nodes j) := by
  intro l
  induction l with
  | nil =>
    intro nodes j _ h
    exact absurd h (List.not_mem_nil j)
  | cons i rest ih =>
    intro nodes j hnd hmem
    rw [List.nodup_cons] at hnd
    rcases List.mem_cons.mp hmem with hji | hjrest
    · subst hji
      rw [sweepList, sweepList_not_mem amMaster probe rest _ j hnd.1,
        sweepStep_apply, if_pos rfl]
    · have hne : j ≠ i := fun he => hnd.1 (he ▸ hjrest)
      rw [sweepList, ih _ j hnd.2 hjrest, sweepStep_apply, if_neg hne]

/-! ## Claims -/

/-- Claim C3: during one heartbeat sweep, every slot of the registry is
transformed by heartbeatUpdate of its own record alone: a free or self record
is untouched, a standby record is untouched when the local role is standby,
and every other in-use record has its retry counter reset to 0 by a successful
probe of its conninfo and incremented by 1 by a failed probe.  Because each
slot's final value depends only on its own probe result, one node's probe
failure never affects — in particular never aborts — the probing of the
remaining nodes. -/
theorem doHeartbeat_slot (maxN : Nat) (amMaster : Bool) (probe : String → Bool)
    (ctl : PgHaCtlData) (j : Nat) (hj : j < maxN) :
    (doHeartbeat maxN amMaster probe ctl).nodes j
      = heartbeatUpdate amMaster probe (ctl.nodes j) :=
  sweepList_mem amMaster probe (List.range maxN) ctl.nodes j
    (List.nodup_range maxN) (List.mem_range.mpr hj)

/-- Witness for C3: a master sweep over a registry with the self record, the
reachable peer nodeB (three prior failures) and the unreachable peer nodeC
(two prior failures) resets nodeB's counter to 0 and increments nodeC's
counter to 3, and leaves the self record untouched. -/
theorem doHeartbeat_slot_witness :
    ((doHeartbeat 3 true hbProbe hbState).nodes 1).retry_count = 0 ∧
    ((doHeartbeat 3 true hbProbe hbState).nodes 2).retry_count = 3 ∧
    (doHeartbeat 3 true hbProbe hbState).nodes 0 = nodeA := by
  refine ⟨?h1, ?h2, ?h3⟩
  · rw [doHeartbeat_slot 3 true hbProbe hbState 1 (by decide)]
    decide
  · rw [doHeartbeat_slot 3 true hbProbe hbState 2 (by decide)]
    decide
  · rw [doHeartbeat_slot 3 true hbProbe hbState 0 (by decide)]
    decide

/-- Claim C4: inserting a name that already exists among the in-use records
with duplicate-tolerance disabled raises the duplicate-node error and leaves
the registry content — every slot and the count — unchanged. -/
theorem addNode_duplicate_rejected (maxN : Nat) (amMaster : Bool)
    (ctl : PgHaCtlData) (name conninfo : String) (myself : Bool)
    (h : ∃ j, j < maxN ∧ (ctl.nodes j).in_use = true ∧ (ctl.nodes j).name = name) :
    (addNode maxN amMaster ctl name conninfo myself false).2
        = Except.error PgHaError.DuplicateNode ∧
    (addNode maxN amMaster ctl name conninfo myself false).1.nodes = ctl.nodes ∧
    (addNode maxN amMaster ctl name conninfo myself false).1.n_nodes = ctl.n_nodes := by
  obtain ⟨k, hk⟩ := findNode_isSome_of_exists ctl.nodes maxN name h
  simp [addNode, hk]

/-- Witness for C4: re-inserting the already-registered name "a" into dupState
without duplicate-tolerance reports the duplicate-node error and changes
neither the slots nor the count. -/
theorem addNode_duplicate_rejected_witness :
    (addNode 3 true dupState "a" "x" false false).2
        = Except.error PgHaError.DuplicateNode ∧
    (addNode 3 true dupState "a" "x" false false).1.nodes = dupState.nodes ∧
    (addNode 3 true dupState "a" "x" false false).1.n_nodes = dupState.n_nodes :=
  addNode_duplicate_rejected 3 true dupState "a" "x" false ⟨0, by decide, rfl, rfl⟩

/-- Claim C5: inserting a name that already exists among the in-use records
with duplicate-tolerance enabled returns true and is idempotent — every slot
and the count are identical before and after the call. -/
theorem addNode_dup_ok_idempotent (maxN : Nat) (amMaster : Bool)
    (ctl : PgHaCtlData) (name conninfo : String) (myself : Bool)
    (h : ∃ j, j < maxN ∧ (ctl.nodes j).in_use = true ∧ (ctl.nodes j).name = name) :
    (addNode maxN amMaster ctl name conninfo myself true).2 = Except.ok true ∧
    (addNode maxN amMaster ctl name conninfo myself true).1.nodes = ctl.nodes ∧
    (addNode maxN amMaster ctl name conninfo myself true).1.n_nodes = ctl.n_nodes := by
  obtain ⟨k, hk⟩ := findNode_isSome_of_exists ctl.nodes maxN name h
  simp [addNode, hk]

/-- Witness for C5: duplicate-tolerant re-insertion of the registered name "a"
into dupState succeeds and leaves the registry content identical. -/
theorem addNode_dup_ok_idempotent_witness :
    (addNode 3 true dupState "a" "x" false true).2 = Except.ok true ∧
    (addNode 3 true dupState "a" "x" false true).1.nodes = dupState.nodes ∧
    (addNode 3 true dupState "a" "x" false true).1.n_nodes = dupState.n_nodes :=
  addNode_dup_ok_idempotent 3 true dupState "a" "x" false ⟨0, by decide, rfl, rfl⟩

/-- Claim C6: removing a name with no matching in-use record raises the
not-found error and leaves the registry content — every slot and in particular
the count — unchanged. -/
theorem delNode_not_found (maxN : Nat) (ctl : PgHaCtlData) (name : String)
    (h : ∀ j, j < maxN → ¬((ctl.nodes j).in_use = true ∧ (ctl.nodes j).name = name)) :
    (delNode maxN ctl name).2 = Except.error PgHaError.NodeNotFound ∧
    (delNode maxN ctl name).1.nodes = ctl.nodes ∧
    (delNode maxN ctl name).1.n_nodes = ctl.n_nodes := by
  have hk : findNode ctl.nodes maxN name = none :=
    (findNode_eq_none_iff ctl.nodes maxN name).mpr h
  simp [delNode, hk]

/-- Witness for C6: removing the unregistered name "z" from dupState reports
the not-found error and changes neither the slots nor the count. -/
theorem delNode_not_found_witness :
    (delNode 3 dupState "z").2 = Except.error PgHaError.NodeNotFound ∧
    (delNode 3 dupState "z").1.nodes = dupState.nodes ∧
    (delNode 3 dupState "z").1.n_nodes = dupState.n_nodes :=
  delNode_not_found 3 dupState "z" (by decide)

/-- Claim C1 (code bug): the registry invariant fails.  After the sequence
insert a, insert b, remove a, insert c from the empty registry, the remove
left a hole at slot 0 (delNode copies from slot n_nodes — a free slot — rather
than the last live slot, contrary to its own "Move tail node" comment), so the
final insert writes slot n_nodes = 1 and clobbers the live record b: the count
n_nodes is 2 while only one slot is in use, and record b is lost. -/
theorem registry_count_mismatch :
    (runOps 10 true initCtl c1ops).n_nodes = 2 ∧
    countInUse (runOps 10 true initCtl c1ops).nodes 10 = 1 ∧
    ((runOps 10 true initCtl c1ops).nodes 1).name = "c" := by
  decide

/-- Claim C2 (code bug): the health evaluator in the source is a stub that
always reports the cluster healthy, even for a registry (c2nodes) whose
tracked peer has accumulated 5 failures against the default retry threshold
of 4, where the specified policy requires a degraded verdict. -/
theorem checkClusterStatus_stub_healthy :
    checkClusterStatus = true ∧ degradedPerSpec 3 c2nodes 4 = true := by
  refine ⟨rfl, ?hd⟩
  decide

/-- Claim C7 (code bug): with capacity maxNodes = 1 and the single slot taken
(fullState), inserting the fresh name "b" does not fail with a capacity error:
addNode has no capacity check, reports success, pushes the count to 2 — above
the capacity — and writes a new in-use record at slot index 1, outside the
configured slot range. -/
theorem addNode_capacity_overflow :
    fullState.n_nodes = 1 ∧
    (addNode 1 true fullState "b" "cb" false false).2 = Except.ok true ∧
    (addNode 1 true fullState "b" "cb" false false).1.n_nodes = 2 ∧
    ((addNode 1 true fullState "b" "cb" false false).1.nodes 1).in_use = true :=
  ⟨rfl, rfl, rfl, rfl⟩

/-- Claim C9 (code bug): the duplicate-tolerant early return of addNode keeps
the registry lock.  Starting from dupState with the lock free, re-inserting
the registered name "a" with dup_ok = true returns success while lockHeld is
still true — the source's early `return true` (pgha.c line 388) performs no
LWLockRelease. -/
theorem addNode_dup_ok_lock_leak :
    dupState.lockHeld = false ∧
    (addNode 3 true dupState "a" "ca" false true).2 = Except.ok true ∧
    (addNode 3 true dupState "a" "ca" false true).1.lockHeld = true :=
  ⟨rfl, rfl, rfl⟩

/-- Claim C8: in each coordinator cycle the pending-shutdown check comes
first (a pending sigterm exits the loop before any cycle work), and when the
body runs, its events are in the strict order reload, heartbeat sweep, health
evaluation, mode switch (a sublist of that canonical order); the reload runs
iff a SIGHUP is pending, the sweep runs iff the registry count exceeds 1, the
evaluation runs iff additionally the local role is primary and in_syncrep is
set, the mode switch additionally requires a degraded verdict from
checkClusterStatus, and with count at most 1 neither sweep nor evaluation nor
actuation occurs. -/
theorem coordinatorCycle_order (amMaster sigterm pmDeath sighup : Bool)
    (ctl : PgHaCtlData) (inSyncrep : Bool) :
    (sigterm = true → amMaster = true →
      coordinatorCycle amMaster sigterm pmDeath sighup ctl inSyncrep
        = CycleResult.exited true) ∧
    (∀ evs, coordinatorCycle amMaster sigterm pmDeath sighup ctl inSyncrep
        = CycleResult.ran evs →
      List.Sublist evs
        [CycleEvent.reloadConfig, CycleEvent.heartbeat,
         CycleEvent.healthEval, CycleEvent.modeSwitch] ∧
      (CycleEvent.reloadConfig ∈ evs ↔ sighup = true) ∧
      (CycleEvent.heartbeat ∈ evs ↔ 1 < ctl.n_nodes) ∧
      (CycleEvent.healthEval ∈ evs ↔
        (amMaster = true ∧ 1 < ctl.n_nodes ∧ inSyncrep = true)) ∧
      (CycleEvent.modeSwitch ∈ evs ↔
        (amMaster = true ∧ 1 < ctl.n_nodes ∧ inSyncrep = true ∧
          checkClusterStatus = false)) ∧
      (ctl.n_nodes ≤ 1 →
        CycleEvent.heartbeat ∉ evs ∧ CycleEvent.healthEval ∉ evs ∧
        CycleEvent.modeSwitch ∉ evs)) := by
  cases amMaster with
  | false =>
    constructor
    · intro _ h
      exact absurd h (by decide)
    · intro evs h
      exact absurd h (by simp [coordinatorCycle])
  | true =>
    cases sigterm with
    | true =>
      constructor
      · intro _ _
        rfl
      · intro evs h
        exact absurd h (by simp [coordinatorCycle, masterCycle])
    | false =>
      cases pmDeath with
      | true =>
        constructor
        · intro h _
          exact absurd h (by decide)
        · intro evs h
          exact absurd h (by simp [coordinatorCycle, masterCycle])
      | false =>
        refine ⟨fun h _ => absurd h (by decide), fun evs h => ?hrun⟩
        have hevs : evs =
            (if sighup then [CycleEvent.reloadConfig] else []) ++
              (if 1 < ctl.n_nodes then
                CycleEvent.heartbeat ::
                  (if inSyncrep then
                    CycleEvent.healthEval ::
                      (if !checkClusterStatus then [CycleEvent.modeSwitch] else [])
                  else [])
              else []) := by
          simpa [coordinatorCycle, masterCycle, get_hanode_count] using h.symm
        subst hevs
        by_cases hn : 1 < ctl.n_nodes
        · cases sighup <;> cases inSyncrep <;>
            simp [hn, checkClusterStatus, Nat.not_le.mpr hn]
        · cases sighup <;> cases inSyncrep <;>
            simp [hn, checkClusterStatus, Nat.lt_irrefl]

/-- Witness for C8: a master cycle with a pending SIGHUP, three registered
nodes (hbState) and in_syncrep set runs exactly reload, heartbeat and health
evaluation in canonical order, the sweep guard 1 < count holding. -/
theorem coordinatorCycle_order_witness :
    List.Sublist
      [CycleEvent.reloadConfig, CycleEvent.heartbeat, CycleEvent.healthEval]
      [CycleEvent.reloadConfig, CycleEvent.heartbeat,
       CycleEvent.healthEval, CycleEvent.modeSwitch] ∧
    (CycleEvent.heartbeat ∈
        [CycleEvent.reloadConfig, CycleEvent.heartbeat, CycleEvent.healthEval] ↔
      1 < hbState.n_nodes) := by
  have h := (coordinatorCycle_order true false false true hbState true).2
    [CycleEvent.reloadConfig, CycleEvent.heartbeat, CycleEvent.healthEval] rfl
  exact ⟨h.1, h.2.2.1⟩

/-- Claim C10: join_node raises the not-master error and performs no
registration side effect — the whole state is returned untouched — whenever
the local process is in recovery; on a master node it registers the caller
duplicate-tolerantly and returns the in-use member set of the registry as it
stands after that registration. -/
theorem join_node_master_gate (maxN : Nat) (amMaster : Bool) (ctl : PgHaCtlData)
    (name conninfo : String) :
    (amMaster = false →
      join_node maxN amMaster ctl name conninfo
        = (ctl, Except.error PgHaError.NotMaster)) ∧
    (amMaster = true →
      (join_node maxN amMaster ctl name conninfo).2
        = Except.ok
            (listFrom (addNode maxN true ctl name conninfo false true).1.nodes maxN 0)) := by
  cases amMaster with
  | false =>
    exact ⟨fun _ => rfl, fun h => absurd h (by decide)⟩
  | true =>
    refine ⟨fun h => absurd h (by decide), fun _ => ?hm⟩
    cases hf : findNode ctl.nodes maxN name with
    | none => simp [join_node, addNode, hf]
    | some k => simp [join_node, addNode, hf]

/-- Witness for C10: calling join_node on a standby (in recovery) with the
dupState registry reports the not-master error and leaves the state exactly
as it was, and on a master it returns the member set. -/
theorem join_node_master_gate_witness :
    join_node 3 false dupState "n" "c" = (dupState, Except.error PgHaError.NotMaster) ∧
    (join_node 3 true dupState "n" "c").2
      = Except.ok (listFrom (addNode 3 true dupState "n" "c" false true).1.nodes 3 0) :=
  ⟨(join_node_master_gate 3 false dupState "n" "c").1 rfl,
   (join_node_master_gate 3 true dupState "n" "c").2 rfl⟩
